import Mathlib

/-!
Verification development for the document-ingestion service
(Record Store / Task Orchestrator / Notification Hub).

The Python sources are shallowly embedded:

* `src/app/api/websocket.py`  → the `Hub` section (`ConnectionManager`);
* `src/app/services/file_manager.py` → the `Fm*` section (JSON-blob-backed
  `FileManager`);
* `src/app/services/database.py` → the `Db*` section (SQLite-backed
  `DatabaseManager`, the durable-table store the design document declares
  canonical);
* `src/app/core/celery_app.py` → `convertExcelToMarkdown`,
  `batchConvertGo` / `batchConvertExcelToMarkdown`,
  `convertAndVectorizeChain`;
* `src/app/services/vector_processor.py` → `processMarkdownFile`.

External collaborators (docling converter, vector store, document
processor, the filesystem) are out of the design's scope; every call into
one of them is abstracted as an `Except String _` outcome parameter, while
all control flow, state updates and result shapes are translated from the
Python sources.  Machine-level details that matter are modelled explicitly
and flagged where they arise (dict-iteration semantics in
`ConnectionManager.disconnect`, SQLite's default of not enforcing
`ON DELETE CASCADE`).
-/

/-- Python exception shapes the embedded code can raise. -/
inductive PyError where
  /-- `raise ValueError(msg)` — used by `FileManager.update_stage_status`
  when the record is missing. -/
  | valueError (msg : String)
  /-- `KeyError(key)` — raised by `metadata["stages"][stage]` when `stage`
  is not one of the three keys every stages dict holds. -/
  | keyError (key : String)
  /-- `TypeError` — raised by `cursor.fetchone()[0]` when the SELECT
  returned no row (`NoneType` is not subscriptable). -/
  | typeError
deriving DecidableEq, Repr

/-- `str(e)` for an embedded exception. -/
def PyError.msg : PyError → String
  | .valueError m => m
  | .keyError k => k
  | .typeError => "TypeError"

/-- First-match association-list lookup, the embedding of a keyed table /
dict / metadata directory. -/
def lookupRec {α : Type} : List (String × α) → String → Option α
  | [], _ => none
  | p :: rest, k => if p.1 = k then some p.2 else lookupRec rest k

theorem lookupRec_mem {α : Type} {m : List (String × α)} {k : String} {v : α}
    (h : lookupRec m k = some v) : (k, v) ∈ m := by
  induction m with
  | nil => simp [lookupRec] at h
  | cons p rest ih =>
    by_cases hk : p.1 = k
    · simp [lookupRec, hk] at h
      subst h
      exact hk ▸ List.mem_cons_self p rest
    · simp [lookupRec, hk] at h
      exact List.mem_cons_of_mem _ (ih h)

/-! ## Notification Hub — `ConnectionManager` (src/app/api/websocket.py)

Connections are opaque; we model them as naturals.  A Python `set` of
connections is a duplicate-free list, a subscription dict is an
association list in insertion order. -/

/-- An opaque live WebSocket connection. -/
abbrev Conn := Nat

/-- One subscription map (`task_subscriptions` or `file_subscriptions`):
dict from id to subscriber set, in insertion order. -/
abbrev SubMap := List (String × List Conn)

/-- `ConnectionManager` state: the live set and the two correlation maps. -/
structure Hub where
  active : List Conn
  taskSubs : SubMap
  fileSubs : SubMap
deriving DecidableEq, Repr

/-- Well-formedness every reachable Python state has: dict keys are unique
and each value is a set (duplicate-free). -/
def SubWf (m : SubMap) : Prop :=
  (m.map (·.1)).Nodup ∧ ∀ p ∈ m, p.2.Nodup

/-- `subscribe_task` / `subscribe_file`: create the entry if the key is
absent, then `set.add` the connection. -/
def subscribeKey : SubMap → String → Conn → SubMap
  | [], k, c => [(k, [c])]
  | p :: rest, k, c =>
    if p.1 = k then (p.1, if c ∈ p.2 then p.2 else p.2 ++ [c]) :: rest
    else p :: subscribeKey rest k c

/-- `unsubscribe_task` / `unsubscribe_file`: `set.discard` the connection
and delete the entry if its set became empty. -/
def unsubscribeKey : SubMap → String → Conn → SubMap
  | [], _, _ => []
  | p :: rest, k, c =>
    if p.1 = k then
      (if (p.2.erase c).isEmpty then unsubscribeKey rest k c
       else (p.1, p.2.erase c) :: unsubscribeKey rest k c)
    else p :: unsubscribeKey rest k c

/-- The fan-out of `send_to_task_subscribers` / `send_to_file_subscribers`
when every send succeeds: the connections the payload is delivered to. -/
def publishDeliveries (m : SubMap) (k : String) : List Conn :=
  (lookupRec m k).getD []

/-- `c` is currently subscribed to key `k`. -/
def isSubscribed (m : SubMap) (k : String) (c : Conn) : Prop :=
  ∃ s, lookupRec m k = some s ∧ c ∈ s

/-- Hub-level `subscribe_task`. -/
def Hub.subscribeTask (h : Hub) (k : String) (c : Conn) : Hub :=
  { h with taskSubs := subscribeKey h.taskSubs k c }

/-- Hub-level `unsubscribe_task`. -/
def Hub.unsubscribeTask (h : Hub) (k : String) (c : Conn) : Hub :=
  { h with taskSubs := unsubscribeKey h.taskSubs k c }

/-- Hub-level `subscribe_file`. -/
def Hub.subscribeFile (h : Hub) (k : String) (c : Conn) : Hub :=
  { h with fileSubs := subscribeKey h.fileSubs k c }

/-- Hub-level `unsubscribe_file`. -/
def Hub.unsubscribeFile (h : Hub) (k : String) (c : Conn) : Hub :=
  { h with fileSubs := unsubscribeKey h.fileSubs k c }

/-- Deliveries of `send_to_task_subscribers h k`. -/
def Hub.sendToTaskSubscribers (h : Hub) (k : String) : List Conn :=
  publishDeliveries h.taskSubs k

/-- Deliveries of `send_to_file_subscribers h k`. -/
def Hub.sendToFileSubscribers (h : Hub) (k : String) : List Conn :=
  publishDeliveries h.fileSubs k

/-- The cleanup loop of `disconnect` over one subscription dict:

```python
for task_id, connections in self.task_subscriptions.items():
    connections.discard(websocket)
    if not connections:
        del self.task_subscriptions[task_id]
```

Deleting a key while iterating `dict.items()` makes the very next call of
the iterator raise `RuntimeError: dictionary changed size during
iteration`.  So: entries are processed in order; when a set becomes empty
its entry is deleted and the loop aborts with the remaining entries
untouched.  The `Bool` is `true` when the `RuntimeError` was raised. -/
def purgeSubs (c : Conn) : SubMap → Bool × SubMap
  | [] => (false, [])
  | p :: rest =>
    if (p.2.erase c).isEmpty then (true, rest)
    else
      let r := purgeSubs c rest
      (r.1, (p.1, p.2.erase c) :: r.2)

/-- `ConnectionManager.disconnect`: discard from the live set, then purge
the task map and, only if that loop finished, the file map.  The `Bool`
reports an escaped `RuntimeError`. -/
def Hub.disconnect (h : Hub) (c : Conn) : Bool × Hub :=
  let act := h.active.erase c
  let t := purgeSubs c h.taskSubs
  if t.1 then (true, { active := act, taskSubs := t.2, fileSubs := h.fileSubs })
  else
    let f := purgeSubs c h.fileSubs
    (f.1, { active := act, taskSubs := t.2, fileSubs := f.2 })

/-! Lemmas about the subscription maps. -/

theorem lookupRec_subscribeKey (m : SubMap) (k : String) (c : Conn) :
    lookupRec (subscribeKey m k c) k =
      some (let s := (lookupRec m k).getD []; if c ∈ s then s else s ++ [c]) := by
  induction m with
  | nil => simp [subscribeKey, lookupRec]
  | cons p rest ih =>
    by_cases hk : p.1 = k
    · simp [subscribeKey, hk, lookupRec]
    · simp [subscribeKey, hk, lookupRec, ih]

theorem keys_unsubscribeKey_subset (m : SubMap) (k : String) (c : Conn) :
    ∀ q ∈ unsubscribeKey m k c, ∃ p ∈ m, q.1 = p.1 := by
  induction m with
  | nil => simp [unsubscribeKey]
  | cons p rest ih =>
    intro q hq
    by_cases hk : p.1 = k
    · simp only [unsubscribeKey, hk, if_pos] at hq
      by_cases he : (p.2.erase c).isEmpty
      · simp only [he, if_pos] at hq
        obtain ⟨r, hr, hqr⟩ := ih q hq
        exact ⟨r, List.mem_cons_of_mem _ hr, hqr⟩
      · simp only [he, if_neg, Bool.false_eq_true, not_false_iff, List.mem_cons] at hq
        rcases hq with hq | hq
        · exact ⟨p, List.mem_cons_self p rest, by simp [hq, hk]⟩
        · obtain ⟨r, hr, hqr⟩ := ih q hq
          exact ⟨r, List.mem_cons_of_mem _ hr, hqr⟩
    · simp only [unsubscribeKey, hk, if_neg, not_false_iff, List.mem_cons] at hq
      rcases hq with hq | hq
      · exact ⟨p, List.mem_cons_self p rest, by rw [hq]⟩
      · obtain ⟨r, hr, hqr⟩ := ih q hq
        exact ⟨r, List.mem_cons_of_mem _ hr, hqr⟩

theorem lookupRec_eq_none_of_no_key {α : Type} {m : List (String × α)} {k : String}
    (h : ∀ p ∈ m, p.1 ≠ k) : lookupRec m k = none := by
  induction m with
  | nil => rfl
  | cons p rest ih =>
    have hp : p.1 ≠ k := h p (List.mem_cons_self p rest)
    simp only [lookupRec, hp, if_neg, not_false_iff]
    exact ih fun q hq => h q (List.mem_cons_of_mem _ hq)

theorem lookupRec_unsubscribeKey {m : SubMap} {k : String} (c : Conn)
    (hnd : (m.map (·.1)).Nodup) :
    lookupRec (unsubscribeKey m k c) k =
      match lookupRec m k with
      | none => none
      | some s => if (s.erase c).isEmpty then none else some (s.erase c) := by
  induction m with
  | nil => rfl
  | cons p rest ih =>
    simp only [List.map_cons, List.nodup_cons] at hnd
    obtain ⟨hp, hrest⟩ := hnd
    by_cases hk : p.1 = k
    · subst hk
      by_cases he : (p.2.erase c).isEmpty
      · simp only [unsubscribeKey, if_pos rfl, he, if_pos, lookupRec]
        exact lookupRec_eq_none_of_no_key fun q hq hcontra => by
          obtain ⟨r, hr, hqr⟩ := keys_unsubscribeKey_subset rest p.1 c q hq
          apply hp
          rw [← hcontra, hqr]
          exact List.mem_map_of_mem (·.1) hr
      · simp [unsubscribeKey, he, lookupRec]
    · simp only [unsubscribeKey, hk, if_neg, not_false_iff, lookupRec]
      exact ih hrest

theorem nodup_of_lookupRec {m : SubMap} {k : String} {s : List Conn}
    (hwf : SubWf m) (h : lookupRec m k = some s) : s.Nodup :=
  hwf.2 (k, s) (lookupRec_mem h)

/-! ## Record payloads shared by both store variants

Stage result dicts are the narrow structures the orchestrator actually
produces: the convert-phase `result_info` dict of
`_convert_excel_to_markdown` and the dict returned by
`VectorizationProcessor.process_markdown_file`. -/

/-- The `result_info` dict built by `_convert_excel_to_markdown` on
success (src/app/core/celery_app.py lines 158-170). -/
structure ConvResultInfo where
  status : String
  input_file : String
  output_file : String
  output_dir : String
  file_size : Nat
  message : String
  file_id : Option String
deriving DecidableEq, Repr

/-- The dict returned by `process_markdown_file`: on success it carries
`document_count`, `metadata` and `vector_type`; the error dict omits those
keys (modelled as `none`) and carries `error`. -/
structure VecResult where
  file_id : String
  file_path : String
  status : String
  document_count : Option Nat
  metadata : Option String
  vector_type : Option String
  error : Option String
deriving DecidableEq, Repr

/-- A stage's stored `result` payload: either dict shape. -/
inductive StagePayload where
  | conv (r : ConvResultInfo)
  | vec (r : VecResult)
deriving DecidableEq, Repr

/-- `result.get("output_file")` — present only on convert result dicts. -/
def StagePayload.getOutputFile : StagePayload → Option String
  | .conv r => some r.output_file
  | .vec _ => none

/-- `result.get("document_count", 0)` before the default is applied. -/
def StagePayload.getDocumentCount : StagePayload → Option Nat
  | .conv _ => none
  | .vec r => r.document_count

/-- `result.get("vector_type")`. -/
def StagePayload.getVectorType : StagePayload → Option String
  | .conv _ => none
  | .vec r => r.vector_type

/-- One `{stage, error, timestamp}` entry of a record's
`processing_errors` list. -/
structure ProcErrorEntry where
  stage : String
  error : String
  timestamp : String
deriving DecidableEq, Repr

/-! ## JSON-blob Record Store — `FileManager`
(src/app/services/file_manager.py)

One JSON metadata file per record; the store is the metadata directory,
an association list keyed by file id. -/

/-- One entry of a record's `stages` dict. -/
structure StageInfo where
  status : String
  timestamp : Option String
  result : Option StagePayload
  error : Option String
deriving DecidableEq, Repr

/-- The `stages` dict: `create_file_record` gives every record exactly the
keys `upload`, `convert`, `vectorize`, and updates never add keys. -/
structure Stages where
  upload : StageInfo
  convert : StageInfo
  vectorize : StageInfo
deriving DecidableEq, Repr

/-- `metadata["stages"][name]`; `none` means the indexing raises
`KeyError(name)`. -/
def Stages.getStage (s : Stages) (name : String) : Option StageInfo :=
  if name = "upload" then some s.upload
  else if name = "convert" then some s.convert
  else if name = "vectorize" then some s.vectorize
  else none

/-- `metadata["stages"][name] = v` for one of the three fixed keys. -/
def Stages.setStage (s : Stages) (name : String) (v : StageInfo) : Stages :=
  if name = "upload" then { s with upload := v }
  else if name = "convert" then { s with convert := v }
  else if name = "vectorize" then { s with vectorize := v }
  else s

/-- A `FileManager` metadata record (the JSON blob of one file). -/
structure FmRecord where
  file_id : String
  original_filename : String
  temp_filename : String
  file_size : Nat
  created_at : String
  status : String
  stages : Stages
  upload_path : String
  output_path : Option String
  markdown_path : Option String
  document_count : Nat
  vector_type : Option String
  processing_errors : List ProcErrorEntry
deriving DecidableEq, Repr

/-- The metadata directory: file id → record. -/
abbrev FmStore := List (String × FmRecord)

/-- `_save_metadata`: overwrite the record's file, creating it if new. -/
def fmSave : FmStore → String → FmRecord → FmStore
  | [], fid, m => [(fid, m)]
  | p :: rest, fid, m =>
    if p.1 = fid then (fid, m) :: rest else p :: fmSave rest fid m

/-- `FileManager.create_file_record` (lines 24-58).  `file_id` is the
fresh uuid and `now` the timestamp, passed explicitly;
`file_extension` stands for `Path(original_filename).suffix`. -/
def fmCreateFileRecord (store : FmStore) (fid original_filename : String)
    (file_size : Nat) (file_extension now : String) : FmStore × FmRecord :=
  let temp := fid ++ file_extension
  let m : FmRecord :=
    { file_id := fid
      original_filename := original_filename
      temp_filename := temp
      file_size := file_size
      created_at := now
      status := "uploaded"
      stages :=
        { upload := { status := "completed", timestamp := some now, result := none, error := none }
          convert := { status := "pending", timestamp := none, result := none, error := none }
          vectorize := { status := "pending", timestamp := none, result := none, error := none } }
      upload_path := "uploads/" ++ temp
      output_path := none
      markdown_path := none
      document_count := 0
      vector_type := none
      processing_errors := [] }
  (fmSave store fid m, m)

/-- Overall-status recomputation of `FileManager.update_stage_status`
(lines 92-103): all three stages completed ⇒ completed; any error ⇒
error; otherwise ⇒ processing. -/
def fmOverallStatus (s : Stages) : String :=
  if s.upload.status = "completed" ∧ s.convert.status = "completed" ∧
      s.vectorize.status = "completed" then "completed"
  else if s.upload.status = "error" ∨ s.convert.status = "error" ∨
      s.vectorize.status = "error" then "error"
  else "processing"

/-- The record transformation applied by `update_stage_status` once the
record and the stage entry have been found (lines 68-103). -/
def fmApplyUpdate (m : FmRecord) (info : StageInfo) (stage status : String)
    (result : Option StagePayload) (error : Option String) (now : String) : FmRecord :=
  let info1 : StageInfo := { info with status := status, timestamp := some now }
  let info2 := match result with
    | some r => { info1 with result := some r }
    | none => info1
  let info3 := match error with
    | some e => { info2 with error := some e }
    | none => info2
  let m1 := { m with stages := m.stages.setStage stage info3 }
  let m2 := match error with
    | some e => { m1 with processing_errors :=
        m1.processing_errors ++ [ProcErrorEntry.mk stage e now] }
    | none => m1
  let m3 :=
    if status = "completed" then
      if stage = "convert" then
        match result with
        | some r => { m2 with markdown_path := r.getOutputFile, output_path := r.getOutputFile }
        | none => m2
      else if stage = "vectorize" then
        match result with
        | some r => { m2 with document_count := r.getDocumentCount.getD 0,
                              vector_type := r.getVectorType }
        | none => m2
      else m2
    else m2
  { m3 with status := fmOverallStatus m3.stages }

/-- `FileManager.update_stage_status` (lines 60-109): `ValueError` when
the record is missing, `KeyError` when the stage is not one of the three
keys of the stages dict; otherwise apply the update, recompute the overall
status and save. -/
def fmUpdateStageStatus (store : FmStore) (fid stage status : String)
    (result : Option StagePayload) (error : Option String) (now : String) :
    Except PyError (FmStore × FmRecord) :=
  match lookupRec store fid with
  | none => .error (.valueError ("文件记录不存在: " ++ fid))
  | some m =>
    match m.stages.getStage stage with
    | none => .error (.keyError stage)
    | some info =>
      let m4 := fmApplyUpdate m info stage status result error now
      .ok (fmSave store fid m4, m4)

theorem lookupRec_fmSave_self (store : FmStore) (fid : String) (m : FmRecord) :
    lookupRec (fmSave store fid m) fid = some m := by
  induction store with
  | nil => simp [fmSave, lookupRec]
  | cons p rest ih =>
    by_cases hk : p.1 = fid
    · simp [fmSave, hk, lookupRec]
    · simp [fmSave, hk, lookupRec, ih]

theorem lookupRec_fmSave_ne (store : FmStore) {fid fid' : String} (m : FmRecord)
    (h : fid' ≠ fid) : lookupRec (fmSave store fid m) fid' = lookupRec store fid' := by
  have hne : ¬ fid = fid' := fun he => h he.symm
  induction store with
  | nil => simp only [fmSave, lookupRec, if_neg hne]
  | cons p rest ih =>
    by_cases hk : p.1 = fid
    · have hp : ¬ p.1 = fid' := by rw [hk]; exact hne
      simp only [fmSave, if_pos hk, lookupRec, if_neg hne, if_neg hp]
    · by_cases hk' : p.1 = fid'
      · simp only [fmSave, if_neg hk, lookupRec, if_pos hk']
      · simp only [fmSave, if_neg hk, lookupRec, if_neg hk', ih]

/-! ## Vectorization processor
(src/app/services/vector_processor.py, `VectorizationProcessor`)

`markdown_to_documents`, `add_documents` and `extract_metadata` live in
collaborator modules outside the design's scope; each call (and the file
read) is an `Except String _` outcome parameter collected in `VecSteps`. -/

/-- The outcomes of the collaborator calls inside
`process_markdown_file`, in execution order. -/
structure VecSteps where
  /-- `open(markdown_path).read()`. -/
  readFile : Except String String
  /-- `document_processor.markdown_to_documents(...)`; on success only the
  number of documents matters downstream. -/
  toDocs : Except String Nat
  /-- `vector_manager.add_documents(documents)`. -/
  addDocuments : Except String Unit
  /-- `document_processor.extract_metadata(...)`. -/
  extractMetadata : Except String String
deriving Repr

/-- The error dict of `process_markdown_file`'s `except` branch (lines
51-58): only `file_id`, `file_path`, `status`, `error` keys. -/
def vecErrorDict (fid path e : String) : VecResult :=
  { file_id := fid, file_path := path, status := "error"
    document_count := none, metadata := none, vector_type := none
    error := some e }

/-- `VectorizationProcessor.process_markdown_file` (lines 19-58): the
whole body sits in one `try`, so every internal failure becomes the
returned error dict and the function never raises.  `selfVectorType` is
`self.vector_manager.vector_type`, fixed at construction. -/
def processMarkdownFile (steps : VecSteps) (markdown_path file_id selfVectorType : String) :
    VecResult :=
  match steps.readFile with
  | .error e => vecErrorDict file_id markdown_path e
  | .ok _content =>
    match steps.toDocs with
    | .error e => vecErrorDict file_id markdown_path e
    | .ok n =>
      match steps.addDocuments with
      | .error e => vecErrorDict file_id markdown_path e
      | .ok _ =>
        match steps.extractMetadata with
        | .error e => vecErrorDict file_id markdown_path e
        | .ok meta =>
          { file_id := file_id, file_path := markdown_path, status := "success"
            document_count := some n, metadata := some meta
            vector_type := some selfVectorType, error := none }

/-- `VectorizationProcessor.process_file` (lines 15-17): delegates to
`process_markdown_file`; its `vector_type` argument is accepted and
ignored (the result carries the constructor-time type instead). -/
def processFile (steps : VecSteps) (file_path file_id : String)
    (_vector_type selfVectorType : String) : VecResult :=
  processMarkdownFile steps file_path file_id selfVectorType

/-! ## Task Orchestrator (src/app/core/celery_app.py)

The store the tasks write through is the JSON-blob `FileManager` (the
tasks construct `FileManager()` directly).  Alongside the store we thread
a trace: the list of `(stage, status)` pairs of the
`update_stage_status` calls that committed, in order. -/

/-- Committed stage transitions, in order. -/
abbrev Trace := List (String × String)

/-- The successful product of the docling conversion + markdown export +
file write inside `_convert_excel_to_markdown`: the output path and the
size reported by `os.path.getsize`. -/
structure ConvCore where
  output_file : String
  file_size : Nat
deriving DecidableEq, Repr

/-- `update_stage_status` through the traced state. -/
def fmUpdateEv (store : FmStore) (tr : Trace) (fid stage status : String)
    (result : Option StagePayload) (error : Option String) (now : String) :
    Except PyError (FmStore × Trace × FmRecord) :=
  match fmUpdateStageStatus store fid stage status result error now with
  | .ok (st2, m) => .ok (st2, tr ++ [(stage, status)], m)
  | .error e => .error e

/-- The `except` branch of `_convert_excel_to_markdown` (lines 175-196):
best-effort `convert → error` write whose own failure is swallowed by the
inner bare `except: pass`. -/
def convertFailUpdate (store : FmStore) (tr : Trace) (fid msg now : String) :
    FmStore × Trace :=
  match fmUpdateEv store tr fid "convert" "error" none (some msg) now with
  | .ok (st2, tr2, _) => (st2, tr2)
  | .error _ => (store, tr)

/-- `_convert_excel_to_markdown` (lines 92-196).  `outcome` abstracts
everything between the `convert → processing` update and the build of
`result_info`: the existence check, converter construction, docling
`convert`, markdown export and file write; any failure there raises and
is re-signalled as `Exception("转换失败: ...")` after the stage was
marked errored. -/
def convertExcelToMarkdown (store : FmStore) (tr : Trace)
    (file_path output_dir : String) (file_id : Option String)
    (outcome : Except String ConvCore) (now : String) :
    FmStore × Trace × Except String ConvResultInfo :=
  match file_id with
  | none =>
    match outcome with
    | .error e => (store, tr, .error ("转换失败: " ++ e))
    | .ok core =>
      (store, tr, .ok
        { status := "success", input_file := file_path
          output_file := core.output_file, output_dir := output_dir
          file_size := core.file_size
          message := "Excel文件成功转换为Markdown", file_id := none })
  | some fid =>
    match fmUpdateEv store tr fid "convert" "processing" none none now with
    | .error e =>
      let msg := "转换失败: " ++ e.msg
      let s := convertFailUpdate store tr fid msg now
      (s.1, s.2, .error msg)
    | .ok (st1, tr1, _) =>
      match outcome with
      | .error e =>
        let msg := "转换失败: " ++ e
        let s := convertFailUpdate st1 tr1 fid msg now
        (s.1, s.2, .error msg)
      | .ok core =>
        let info : ConvResultInfo :=
          { status := "success", input_file := file_path
            output_file := core.output_file, output_dir := output_dir
            file_size := core.file_size
            message := "Excel文件成功转换为Markdown", file_id := some fid }
        match fmUpdateEv st1 tr1 fid "convert" "completed" (some (.conv info)) none now with
        | .ok (st2, tr2, _) => (st2, tr2, .ok info)
        | .error e2 =>
          let msg := "转换失败: " ++ e2.msg
          let s := convertFailUpdate st1 tr1 fid msg now
          (s.1, s.2, .error msg)

/-- One item of a batch call: the path, the id picked by
`file_ids[i] if i < len(file_ids) else None`, and the conversion
outcome. -/
structure BatchItem where
  file_path : String
  fid : Option String
  outcome : Except String ConvCore
deriving Repr

/-- One entry of the batch's `results` list: the success `result_info`
dict, or the in-place error dict of lines 241-247. -/
inductive BatchEntry where
  | success (r : ConvResultInfo)
  | failure (input_file : String) (error : String) (file_id : Option String)
deriving DecidableEq, Repr

/-- The `status` field of a results entry. -/
def BatchEntry.statusOf : BatchEntry → String
  | .success r => r.status
  | .failure _ _ _ => "error"

/-- The loop of `batch_convert_excel_to_markdown` (lines 229-250): run
each item through `_convert_excel_to_markdown`, capture a failure in
place, keep counting.  Returns the final store, trace, the `results`
list and `(success_count, error_count)`. -/
def batchConvertGo (store : FmStore) (tr : Trace) (output_dir now : String) :
    List BatchItem → FmStore × Trace × List BatchEntry × Nat × Nat
  | [] => (store, tr, [], 0, 0)
  | it :: rest =>
    match convertExcelToMarkdown store tr it.file_path output_dir it.fid it.outcome now with
    | (st1, tr1, .ok info) =>
      let r := batchConvertGo st1 tr1 output_dir now rest
      (r.1, r.2.1, .success info :: r.2.2.1, r.2.2.2.1 + 1, r.2.2.2.2)
    | (st1, tr1, .error msg) =>
      let r := batchConvertGo st1 tr1 output_dir now rest
      (r.1, r.2.1, .failure it.file_path msg it.fid :: r.2.2.1, r.2.2.2.1, r.2.2.2.2 + 1)

/-- The `batch_result` dict (lines 253-261). -/
structure BatchResult where
  status : String
  total_files : Nat
  success_count : Nat
  error_count : Nat
  results : List BatchEntry
deriving Repr

/-- `batch_convert_excel_to_markdown` (lines 202-269) with the caller
supplying `file_ids` (the auto-create branch only manufactures such ids);
items already pair each path with `file_ids[i] if i < len else None`. -/
def batchConvertExcelToMarkdown (store : FmStore) (items : List BatchItem)
    (output_dir now : String) : FmStore × Trace × BatchResult :=
  let r := batchConvertGo store [] output_dir now items
  (r.1, r.2.1,
    { status := "completed", total_files := items.length
      success_count := r.2.2.2.1, error_count := r.2.2.2.2
      results := r.2.2.1 })

/-- The merged `final_result` dict of `convert_and_vectorize_chain`
(lines 349-355). -/
structure ChainResult where
  status : String
  file_id : String
  convert_result : ConvResultInfo
  vector_result : VecResult
  message : String
deriving DecidableEq, Repr

/-- The `except` branch of `convert_and_vectorize_chain` (lines 360-371):
best-effort `vectorize → error` write (its own failure swallowed), then
the chain fails with `Exception("完整任务链失败: ...")`. -/
def chainFail (store : FmStore) (tr : Trace) (fid e now : String) :
    FmStore × Trace × Except String ChainResult :=
  let msg := "完整任务链失败: " ++ e
  match fmUpdateEv store tr fid "vectorize" "error" none (some msg) now with
  | .ok (st2, tr2, _) => (st2, tr2, .error msg)
  | .error _ => (store, tr, .error msg)

/-- `convert_and_vectorize_chain` (lines 313-371).  `convOutcome` is the
docling phase, `vecInit` the `VectorizationProcessor()` construction
(its collaborator constructors can raise), `vecSteps` the internal
outcomes of `process_file` — which itself never raises.  The
vectorization result is stored as the vectorize stage's `completed`
payload whatever its `status` field says. -/
def convertAndVectorizeChain (store : FmStore) (file_path fid : String)
    (output_dir : String) (convOutcome : Except String ConvCore)
    (vecInit : Except String Unit) (vecSteps : VecSteps) (now : String) :
    FmStore × Trace × Except String ChainResult :=
  match fmUpdateEv store [] fid "convert" "processing" none none now with
  | .error e => chainFail store [] fid e.msg now
  | .ok (st1, tr1, _) =>
    match convertExcelToMarkdown st1 tr1 file_path output_dir (some fid) convOutcome now with
    | (st2, tr2, .error e) => chainFail st2 tr2 fid e now
    | (st2, tr2, .ok convRes) =>
      match fmUpdateEv st2 tr2 fid "convert" "completed" (some (.conv convRes)) none now with
      | .error e => chainFail st2 tr2 fid e.msg now
      | .ok (st3, tr3, _) =>
        match fmUpdateEv st3 tr3 fid "vectorize" "processing" none none now with
        | .error e => chainFail st3 tr3 fid e.msg now
        | .ok (st4, tr4, _) =>
          match vecInit with
          | .error e => chainFail st4 tr4 fid e now
          | .ok _ =>
            let vecRes := processFile vecSteps convRes.output_file fid "milvus" "milvus"
            match fmUpdateEv st4 tr4 fid "vectorize" "completed" (some (.vec vecRes)) none now with
            | .error e => chainFail st4 tr4 fid e.msg now
            | .ok (st5, tr5, _) =>
              (st5, tr5, .ok
                { status := "completed", file_id := fid
                  convert_result := convRes, vector_result := vecRes
                  message := "完整任务链执行成功" })

/-! ## Durable-table Record Store — `DatabaseManager`
(src/app/services/database.py)

Two tables: `file_records` keyed by `file_id`, and `file_stages`, one row
per `(file_id, stage_name)`.  The schema declares
`ON DELETE CASCADE` on `file_stages.file_id`, but every operation opens a
fresh `sqlite3.connect(...)` and never issues `PRAGMA foreign_keys=ON`;
SQLite leaves foreign-key enforcement off by default, so the cascade
never fires and `DELETE FROM file_records` leaves the stage rows in
place.  The embedding reproduces that behaviour. -/

/-- One row of `file_records`. -/
structure DbRecord where
  original_filename : String
  temp_filename : String
  file_size : Nat
  status : String
  created_at : String
  updated_at : String
  upload_path : Option String
  output_path : Option String
  markdown_path : Option String
  document_count : Nat
  vector_type : Option String
  processing_errors : List ProcErrorEntry
deriving DecidableEq, Repr

/-- One row of `file_stages`. -/
structure DbStageRow where
  file_id : String
  stage_name : String
  status : String
  timestamp : Option String
  result : Option StagePayload
  error : Option String
deriving DecidableEq, Repr

/-- The database: both tables, rows in insertion order. -/
structure DbStore where
  records : List (String × DbRecord)
  stages : List DbStageRow
deriving DecidableEq, Repr

/-- The freshly initialised (empty) database. -/
def dbEmpty : DbStore := { records := [], stages := [] }

/-- `UPDATE file_records ... WHERE file_id = fid`: apply `f` to the
matching record rows. -/
def recMap (fid : String) (f : DbRecord → DbRecord) (recs : List (String × DbRecord)) :
    List (String × DbRecord) :=
  recs.map fun p => if p.1 = fid then (p.1, f p.2) else p

/-- `UPDATE file_stages ... WHERE file_id = fid AND stage_name = stage`. -/
def stgMap (fid stage : String) (f : DbStageRow → DbStageRow) (rows : List DbStageRow) :
    List DbStageRow :=
  rows.map fun r => if r.file_id = fid ∧ r.stage_name = stage then f r else r

/-- `DatabaseManager.create_file_record` (lines 84-118): insert the record
row with status `uploaded` and the three initial stage rows
(`upload` completed at `now`, `convert` and `vectorize` pending). -/
def dbCreateFileRecord (st : DbStore) (fid original_filename temp_filename : String)
    (file_size : Nat) (upload_path : Option String) (now : String) : DbStore :=
  let rec0 : DbRecord :=
    { original_filename := original_filename, temp_filename := temp_filename
      file_size := file_size, status := "uploaded"
      created_at := now, updated_at := now
      upload_path := upload_path, output_path := none, markdown_path := none
      document_count := 0, vector_type := none, processing_errors := [] }
  { records := st.records ++ [(fid, rec0)]
    stages := st.stages ++
      [ { file_id := fid, stage_name := "upload", status := "completed"
          timestamp := some now, result := none, error := none }
      , { file_id := fid, stage_name := "convert", status := "pending"
          timestamp := none, result := none, error := none }
      , { file_id := fid, stage_name := "vectorize", status := "pending"
          timestamp := none, result := none, error := none } ] }

/-- The statuses `_update_file_status` selects (lines 187-192): the rows
of this file whose `stage_name` is `convert` or `vectorize` — the
`upload` row is not consulted. -/
def dbStageStatusesFor (rows : List DbStageRow) (fid : String) : List String :=
  (rows.filter fun r =>
    r.file_id = fid ∧ (r.stage_name = "convert" ∨ r.stage_name = "vectorize")).map
    (·.status)

/-- The overall-status derivation of `_update_file_status`
(lines 194-202). -/
def dbOverallStatus (sts : List String) : String :=
  if sts.all (· = "completed") then "completed"
  else if sts.any (· = "error") then "error"
  else if sts.any (fun s => s = "processing" ∨ s = "completed") then "processing"
  else "uploaded"

/-- `_update_file_status` (lines 184-208): recompute and store this
file's overall status. -/
def dbUpdateFileStatus (st : DbStore) (fid : String) : DbStore :=
  let newStatus := dbOverallStatus (dbStageStatusesFor st.stages fid)
  { st with records := recMap fid (fun r => { r with status := newStatus }) st.records }

/-- A record view returned by `get_file_record` (lines 210-254): the
record row plus this file's stage rows (the SQL also orders them by
`stage_name`; no claim depends on the order, so table order is kept). -/
structure DbView where
  record : DbRecord
  stageRows : List DbStageRow
deriving DecidableEq, Repr

/-- `DatabaseManager.get_file_record`. -/
def dbGetFileRecord (st : DbStore) (fid : String) : Option DbView :=
  match lookupRec st.records fid with
  | none => none
  | some r => some { record := r, stageRows := st.stages.filter (fun s => s.file_id = fid) }

/-- The stage-row `UPDATE` of lines 132-136. -/
def dbStageUpd (status : String) (result : Option StagePayload) (error : Option String)
    (now : String) (r : DbStageRow) : DbStageRow :=
  { r with status := status, timestamp := some now, result := result, error := error }

/-- The `updated_at` refresh of lines 139-143. -/
def dbRecTouch (now : String) (r : DbRecord) : DbRecord := { r with updated_at := now }

/-- The on-completion result copying of lines 146-158. -/
def dbRecPaths (stage status : String) (result : Option StagePayload) (r : DbRecord) :
    DbRecord :=
  if status = "completed" ∧ result.isSome then
    if stage = "convert" then
      match result.bind StagePayload.getOutputFile with
      | some f => { r with markdown_path := some f, output_path := some f }
      | none => r
    else if stage = "vectorize" then
      { r with document_count := ((result.bind StagePayload.getDocumentCount).getD 0)
               vector_type := result.bind StagePayload.getVectorType }
    else r
  else r

/-- The overall-status write of `_update_file_status`. -/
def dbRecSetStatus (s : String) (r : DbRecord) : DbRecord := { r with status := s }

/-- The `processing_errors` append of lines 164-177. -/
def dbRecAddError (stage e now : String) (r : DbRecord) : DbRecord :=
  { r with processing_errors := r.processing_errors ++ [ProcErrorEntry.mk stage e now] }

/-- `DatabaseManager.update_stage_status` (lines 120-182), one committed
transaction: update the stage row(s), refresh `updated_at`, copy result
fields on completion, recompute the overall status, then — only when
`error` is set — read `processing_errors` back and append.  That read
does `cursor.fetchone()[0]`, so an unknown `file_id` with an error set
raises `TypeError` and the `with`-block rolls the transaction back
(modelled by returning `.error` and no new store). -/
def dbUpdateStageStatus (st : DbStore) (fid stage status : String)
    (result : Option StagePayload) (error : Option String) (now : String) :
    Except PyError (DbStore × Option DbView) :=
  let stages1 := stgMap fid stage (dbStageUpd status result error now) st.stages
  let recs1 := recMap fid (dbRecTouch now) st.records
  let recs2 := recMap fid (dbRecPaths stage status result) recs1
  let newStatus := dbOverallStatus (dbStageStatusesFor stages1 fid)
  let recs3 := recMap fid (dbRecSetStatus newStatus) recs2
  match error with
  | none =>
    let st2 : DbStore := { records := recs3, stages := stages1 }
    .ok (st2, dbGetFileRecord st2 fid)
  | some e =>
    match lookupRec recs3 fid with
    | none => .error .typeError
    | some _ =>
      let recs4 := recMap fid (dbRecAddError stage e now) recs3
      let st2 : DbStore := { records := recs4, stages := stages1 }
      .ok (st2, dbGetFileRecord st2 fid)

/-- Outcome of `cleanup_file`. -/
inductive CleanupOutcome where
  /-- `{"file_id": ..., "status": "cleaned"}`. -/
  | cleaned (file_id : String)
  /-- `{"error": "文件记录不存在"}`. -/
  | notFoundDict
deriving DecidableEq, Repr

/-- `DatabaseManager.cleanup_file` (lines 323-340): delete the record row.
With foreign keys unenforced (no `PRAGMA foreign_keys=ON` is ever
issued), the `file_stages` rows survive.  `rowcount > 0` decides between
the cleaned dict and the not-found dict. -/
def dbCleanupFile (st : DbStore) (fid : String) : DbStore × CleanupOutcome :=
  let remaining := st.records.filter fun p => ¬ p.1 = fid
  if remaining.length < st.records.length then
    ({ records := remaining, stages := st.stages }, .cleaned fid)
  else
    (st, .notFoundDict)

/-! ## Hub claims -/

theorem nodup_getD_lookupRec {m : SubMap} (k : String) (hwf : SubWf m) :
    ((lookupRec m k).getD []).Nodup := by
  cases hl : lookupRec m k with
  | none => simp
  | some s => simpa using nodup_of_lookupRec hwf hl

theorem count_addConn (s : List Conn) (c : Conn) (hnd : s.Nodup) :
    (if c ∈ s then s else s ++ [c]).count c = 1 := by
  by_cases hc : c ∈ s
  · rw [if_pos hc]
    exact List.count_eq_one_of_mem hnd hc
  · rw [if_neg hc, List.count_append, List.count_eq_zero.mpr hc]
    simp

theorem count_erase_zero (s : List Conn) (c : Conn) (hnd : s.Nodup) :
    (s.erase c).count c = 0 := by
  by_cases hc : c ∈ s
  · rw [List.count_erase_self, List.count_eq_one_of_mem hnd hc]
  · rw [List.erase_of_not_mem hc]
    exact List.count_eq_zero.mpr hc

theorem subMapDelivery (m : SubMap) (k : String) (c : Conn) (hwf : SubWf m) :
    (publishDeliveries (subscribeKey m k c) k).count c = 1 ∧
    (publishDeliveries (unsubscribeKey m k c) k).count c = 0 ∧
    (publishDeliveries m k).Nodup ∧
    ∀ x, x ∈ publishDeliveries m k ↔ isSubscribed m k x := by
  refine ⟨?_, ?_, nodup_getD_lookupRec k hwf, ?_⟩
  · rw [publishDeliveries, lookupRec_subscribeKey]
    show (if c ∈ (lookupRec m k).getD [] then (lookupRec m k).getD []
          else (lookupRec m k).getD [] ++ [c]).count c = 1
    exact count_addConn _ c (nodup_getD_lookupRec k hwf)
  · rw [publishDeliveries, lookupRec_unsubscribeKey c hwf.1]
    cases hl : lookupRec m k with
    | none => simp
    | some s =>
      by_cases he : (s.erase c).isEmpty
      · simp [he]
      · simp only [he, if_neg, Bool.false_eq_true, not_false_iff, Option.getD_some]
        exact count_erase_zero s c (nodup_of_lookupRec hwf hl)
  · intro x
    cases hl : lookupRec m k with
    | none => simp [publishDeliveries, isSubscribed, hl]
    | some s => simp [publishDeliveries, isSubscribed, hl]

/-- C7: after `Subscribe(K, c)` a publish to `K` delivers to `c` exactly
once; after `Unsubscribe(K, c)` a publish to `K` delivers nothing to `c`;
fan-out reaches exactly the connections currently subscribed to `K`
(each exactly once) — for both the task-id and the file-id maps. -/
theorem c7_publish_subscribe_delivery (h : Hub) (k : String) (c : Conn)
    (hT : SubWf h.taskSubs) (hF : SubWf h.fileSubs) :
    ((h.subscribeTask k c).sendToTaskSubscribers k).count c = 1 ∧
    ((h.unsubscribeTask k c).sendToTaskSubscribers k).count c = 0 ∧
    (h.sendToTaskSubscribers k).Nodup ∧
    (∀ x, x ∈ h.sendToTaskSubscribers k ↔ isSubscribed h.taskSubs k x) ∧
    ((h.subscribeFile k c).sendToFileSubscribers k).count c = 1 ∧
    ((h.unsubscribeFile k c).sendToFileSubscribers k).count c = 0 ∧
    (h.sendToFileSubscribers k).Nodup ∧
    (∀ x, x ∈ h.sendToFileSubscribers k ↔ isSubscribed h.fileSubs k x) := by
  obtain ⟨t1, t2, t3, t4⟩ := subMapDelivery h.taskSubs k c hT
  obtain ⟨f1, f2, f3, f4⟩ := subMapDelivery h.fileSubs k c hF
  exact ⟨t1, t2, t3, t4, f1, f2, f3, f4⟩

/-- Witness for C7 at a concrete hub. -/
theorem c7_publish_subscribe_delivery_witness :
    ((Hub.subscribeTask ⟨[5], [("t9", [5])], []⟩ "t1" 5).sendToTaskSubscribers "t1").count 5 = 1 :=
  (c7_publish_subscribe_delivery ⟨[5], [("t9", [5])], []⟩ "t1" 5
    (by constructor <;> simp [SubWf]) (by constructor <;> simp [SubWf])).1

/-- The C5 failing input: `c = 7` is the sole subscriber of task `t1` and
of file `f1`, and the only live connection. -/
def hubDemo : Hub :=
  { active := [7], taskSubs := [("t1", [7])], fileSubs := [("f1", [7])] }

/-- C5 (code bug): on `hubDemo`, `disconnect 7` deletes the emptied task
entry while iterating the dict, so Python raises
`RuntimeError: dictionary changed size during iteration` (first conjunct),
the file-subscription cleanup never runs (second), and a following publish
to `f1` still delivers to the disconnected connection (third and fourth) —
against the claim that a disconnected connection is removed from every
subscription entry and receives zero further deliveries. -/
theorem c5_disconnect_crash_leaves_subscription :
    (hubDemo.disconnect 7).1 = true ∧
    (hubDemo.disconnect 7).2.fileSubs = [("f1", [7])] ∧
    (hubDemo.disconnect 7).2.sendToFileSubscribers "f1" = [7] ∧
    7 ∈ (hubDemo.disconnect 7).2.sendToFileSubscribers "f1" := by
  refine ⟨rfl, rfl, rfl, ?_⟩
  show 7 ∈ [7]
  simp

/-! ## Orchestrator claims over the `FileManager` store -/

theorem getStage_upload (s : Stages) : s.getStage "upload" = some s.upload := rfl

theorem getStage_convert (s : Stages) : s.getStage "convert" = some s.convert := rfl

theorem getStage_vectorize (s : Stages) : s.getStage "vectorize" = some s.vectorize := rfl

theorem fmUpdateEv_ok_of_present {store : FmStore} {fid : String} {m : FmRecord}
    {stage : String} {info : StageInfo}
    (h : lookupRec store fid = some m) (hs : m.stages.getStage stage = some info)
    (tr : Trace) (status : String) (result : Option StagePayload)
    (error : Option String) (now : String) :
    fmUpdateEv store tr fid stage status result error now =
      .ok (fmSave store fid (fmApplyUpdate m info stage status result error now),
           tr ++ [(stage, status)],
           fmApplyUpdate m info stage status result error now) := by
  simp [fmUpdateEv, fmUpdateStageStatus, h, hs]

/-- C4: a chained task that fails in either phase terminates as a chain
failure, leaves the record with overall status `error`, and the failing
stage's state is `error` carrying the failure message — in particular a
convert-phase failure leaves the error at the convert stage. -/
theorem c4_chain_failure_marks_failing_stage
    (store : FmStore) (fid path odir now e : String) (m : FmRecord)
    (core : ConvCore) (steps : VecSteps) (vinit : Except String Unit)
    (h : lookupRec store fid = some m) :
    ((convertAndVectorizeChain store path fid odir (.error e) vinit steps now).2.2 =
        .error ("完整任务链失败: " ++ ("转换失败: " ++ e)) ∧
      ((lookupRec (convertAndVectorizeChain store path fid odir (.error e) vinit steps now).1
          fid).map fun r =>
        (r.stages.convert.status, r.stages.convert.error, r.status)) =
        some ("error", some ("转换失败: " ++ e), "error")) ∧
    ((convertAndVectorizeChain store path fid odir (.ok core) (.error e) steps now).2.2 =
        .error ("完整任务链失败: " ++ e) ∧
      ((lookupRec (convertAndVectorizeChain store path fid odir (.ok core) (.error e) steps now).1
          fid).map fun r =>
        (r.stages.vectorize.status, r.stages.vectorize.error, r.status)) =
        some ("error", some ("完整任务链失败: " ++ e), "error")) := by
  constructor
  · constructor
    · simp [convertAndVectorizeChain, convertExcelToMarkdown, chainFail, convertFailUpdate,
        fmUpdateEv, fmUpdateStageStatus, h, lookupRec_fmSave_self, Stages.getStage,
        fmApplyUpdate, Stages.setStage, fmOverallStatus]
    · simp [convertAndVectorizeChain, convertExcelToMarkdown, chainFail, convertFailUpdate,
        fmUpdateEv, fmUpdateStageStatus, h, lookupRec_fmSave_self, Stages.getStage,
        fmApplyUpdate, Stages.setStage, fmOverallStatus]
  · constructor
    · simp [convertAndVectorizeChain, convertExcelToMarkdown, chainFail, convertFailUpdate,
        fmUpdateEv, fmUpdateStageStatus, h, lookupRec_fmSave_self, Stages.getStage,
        fmApplyUpdate, Stages.setStage, fmOverallStatus]
    · simp [convertAndVectorizeChain, convertExcelToMarkdown, chainFail, convertFailUpdate,
        fmUpdateEv, fmUpdateStageStatus, h, lookupRec_fmSave_self, Stages.getStage,
        fmApplyUpdate, Stages.setStage, fmOverallStatus]

/-- Witness for C4: the hypothesis and the convert-phase conclusion at a
concrete store. -/
theorem c4_chain_failure_marks_failing_stage_witness :
    lookupRec (fmCreateFileRecord [] "f1" "r.xlsx" 10 ".xlsx" "t0").1 "f1" =
      some (fmCreateFileRecord [] "f1" "r.xlsx" 10 ".xlsx" "t0").2 ∧
    (convertAndVectorizeChain (fmCreateFileRecord [] "f1" "r.xlsx" 10 ".xlsx" "t0").1
        "uploads/f1.xlsx" "f1" "output" (.error "boom") (.ok ())
        ⟨.ok "", .ok 0, .ok (), .ok ""⟩ "t1").2.2 =
      .error ("完整任务链失败: " ++ ("转换失败: " ++ "boom")) :=
  ⟨rfl,
    ((c4_chain_failure_marks_failing_stage
        (fmCreateFileRecord [] "f1" "r.xlsx" 10 ".xlsx" "t0").1 "f1"
        "uploads/f1.xlsx" "output" "t1" "boom"
        (fmCreateFileRecord [] "f1" "r.xlsx" 10 ".xlsx" "t0").2
        ⟨"o.md", 5⟩ ⟨.ok "", .ok 0, .ok (), .ok ""⟩ (.ok ()) rfl).1).1⟩

/-- Collapse adjacent duplicates of a trace. -/
def dedupAdj : Trace → Trace
  | [] => []
  | [x] => [x]
  | x :: y :: rest => if x = y then dedupAdj (y :: rest) else x :: dedupAdj (y :: rest)

/-- C9: on a fresh record, a fully successful chain commits the stage
transitions in order `convert processing → convert completed → vectorize
processing → vectorize completed` (the raw trace repeats the convert
updates because both `convert_and_vectorize_chain` and
`_convert_excel_to_markdown` write them), with `upload` already
`completed` from creation; the record ends all-completed with overall
status `completed` and the markdown path set; the chain result carries
both phase outputs. -/
theorem c9_chain_success_order
    (store : FmStore) (fid name ext now path odir content meta : String)
    (size n : Nat) (core : ConvCore) :
    (fmCreateFileRecord store fid name size ext now).2.stages.upload.status = "completed" ∧
    (fmCreateFileRecord store fid name size ext now).2.status = "uploaded" ∧
    (convertAndVectorizeChain (fmCreateFileRecord store fid name size ext now).1 path fid odir
        (.ok core) (.ok ()) ⟨.ok content, .ok n, .ok (), .ok meta⟩ now).2.1 =
      [("convert", "processing"), ("convert", "processing"), ("convert", "completed"),
       ("convert", "completed"), ("vectorize", "processing"), ("vectorize", "completed")] ∧
    dedupAdj (convertAndVectorizeChain (fmCreateFileRecord store fid name size ext now).1 path fid
        odir (.ok core) (.ok ()) ⟨.ok content, .ok n, .ok (), .ok meta⟩ now).2.1 =
      [("convert", "processing"), ("convert", "completed"),
       ("vectorize", "processing"), ("vectorize", "completed")] ∧
    (convertAndVectorizeChain (fmCreateFileRecord store fid name size ext now).1 path fid odir
        (.ok core) (.ok ()) ⟨.ok content, .ok n, .ok (), .ok meta⟩ now).2.2 =
      .ok { status := "completed", file_id := fid
            convert_result :=
              { status := "success", input_file := path, output_file := core.output_file
                output_dir := odir, file_size := core.file_size
                message := "Excel文件成功转换为Markdown", file_id := some fid }
            vector_result :=
              { file_id := fid, file_path := core.output_file, status := "success"
                document_count := some n, metadata := some meta
                vector_type := some "milvus", error := none }
            message := "完整任务链执行成功" } ∧
    ((lookupRec (convertAndVectorizeChain (fmCreateFileRecord store fid name size ext now).1 path
        fid odir (.ok core) (.ok ()) ⟨.ok content, .ok n, .ok (), .ok meta⟩ now).1 fid).map
      fun r => (r.status, r.stages.upload.status, r.stages.convert.status,
                r.stages.vectorize.status, r.markdown_path)) =
      some ("completed", "completed", "completed", "completed", some core.output_file) := by
  refine ⟨rfl, rfl, ?_, ?_, ?_, ?_⟩ <;>
    simp [convertAndVectorizeChain, convertExcelToMarkdown, chainFail, convertFailUpdate,
      fmUpdateEv, fmUpdateStageStatus, fmCreateFileRecord, lookupRec_fmSave_self,
      Stages.getStage, fmApplyUpdate, Stages.setStage, fmOverallStatus, dedupAdj,
      processFile, processMarkdownFile, StagePayload.getOutputFile,
      StagePayload.getDocumentCount, StagePayload.getVectorType]

/-- `True` exactly when the Python call would have raised. -/
def exceptFailed {ε α : Type} : Except ε α → Bool
  | .error _ => true
  | .ok _ => false

/-- C10: `process_file` / `process_markdown_file` never raises — any
internal failure yields the returned dict with status `error` — and a
chain whose vectorization fails internally (without raising) still marks
the vectorize stage `completed`, stores the error dict as the stage
result, and returns a chain result with status `completed`. -/
theorem c10_vectorize_error_swallowed
    (steps : VecSteps) (p f vt : String) (store : FmStore)
    (fid path odir now e : String) (m : FmRecord) (core : ConvCore)
    (h : lookupRec store fid = some m) :
    ((exceptFailed steps.readFile = true ∨ exceptFailed steps.toDocs = true ∨
      exceptFailed steps.addDocuments = true ∨ exceptFailed steps.extractMetadata = true) →
      (processMarkdownFile steps p f vt).status = "error" ∧
      (processMarkdownFile steps p f vt).error.isSome = true) ∧
    (steps.readFile = .error e →
      (convertAndVectorizeChain store path fid odir (.ok core) (.ok ()) steps now).2.2 =
        .ok { status := "completed", file_id := fid
              convert_result :=
                { status := "success", input_file := path, output_file := core.output_file
                  output_dir := odir, file_size := core.file_size
                  message := "Excel文件成功转换为Markdown", file_id := some fid }
              vector_result := vecErrorDict fid core.output_file e
              message := "完整任务链执行成功" } ∧
      ((lookupRec (convertAndVectorizeChain store path fid odir (.ok core) (.ok ()) steps now).1
          fid).map fun r => (r.stages.vectorize.status, r.stages.vectorize.result)) =
        some ("completed", some (.vec (vecErrorDict fid core.output_file e)))) := by
  obtain ⟨rf, td, ad, em⟩ := steps
  constructor
  · intro hany
    cases rf with
    | error e1 => simp [processMarkdownFile, vecErrorDict]
    | ok c1 =>
      cases td with
      | error e2 => simp [processMarkdownFile, vecErrorDict]
      | ok n2 =>
        cases ad with
        | error e3 => simp [processMarkdownFile, vecErrorDict]
        | ok u3 =>
          cases em with
          | error e4 => simp [processMarkdownFile, vecErrorDict]
          | ok m4 => simp [exceptFailed] at hany
  · intro hread
    simp only at hread
    subst hread
    constructor <;>
      simp [convertAndVectorizeChain, convertExcelToMarkdown, chainFail, convertFailUpdate,
        fmUpdateEv, fmUpdateStageStatus, h, lookupRec_fmSave_self, Stages.getStage,
        fmApplyUpdate, Stages.setStage, fmOverallStatus, processFile, processMarkdownFile,
        vecErrorDict, StagePayload.getOutputFile, StagePayload.getDocumentCount,
        StagePayload.getVectorType]

/-- Witness for C10: hypotheses discharged at a concrete failing
vectorization on a concrete store. -/
theorem c10_vectorize_error_swallowed_witness :
    lookupRec (fmCreateFileRecord [] "f1" "r.xlsx" 10 ".xlsx" "t0").1 "f1" =
      some (fmCreateFileRecord [] "f1" "r.xlsx" 10 ".xlsx" "t0").2 ∧
    exceptFailed (Except.error "read failed" : Except String String) = true ∧
    (processMarkdownFile ⟨.error "read failed", .ok 0, .ok (), .ok ""⟩ "p.md" "f1"
        "milvus").status = "error" :=
  ⟨rfl, rfl,
    ((c10_vectorize_error_swallowed ⟨.error "read failed", .ok 0, .ok (), .ok ""⟩ "p.md" "f1"
        "milvus" (fmCreateFileRecord [] "f1" "r.xlsx" 10 ".xlsx" "t0").1 "f1"
        "uploads/f1.xlsx" "output" "t1" "read failed"
        (fmCreateFileRecord [] "f1" "r.xlsx" 10 ".xlsx" "t0").2 ⟨"o.md", 5⟩ rfl).1
      (Or.inl rfl)).1⟩

theorem isSome_fmSave (store : FmStore) (fid g : String) (m : FmRecord)
    (h : (lookupRec store g).isSome = true) :
    (lookupRec (fmSave store fid m) g).isSome = true := by
  by_cases hg : g = fid
  · subst hg
    rw [lookupRec_fmSave_self]
    rfl
  · rw [lookupRec_fmSave_ne store m hg]
    exact h

theorem convert_preserves (store : FmStore) (tr : Trace) (path odir : String)
    (fidOpt : Option String) (outcome : Except String ConvCore) (now g : String)
    (h : (lookupRec store g).isSome = true) :
    (lookupRec (convertExcelToMarkdown store tr path odir fidOpt outcome now).1 g).isSome
      = true := by
  cases fidOpt with
  | none => cases outcome <;> simpa [convertExcelToMarkdown] using h
  | some fid =>
    cases hl : lookupRec store fid with
    | none =>
      cases outcome <;>
        simpa [convertExcelToMarkdown, convertFailUpdate, fmUpdateEv,
          fmUpdateStageStatus, hl] using h
    | some m =>
      cases outcome with
      | error e =>
        simp only [convertExcelToMarkdown, convertFailUpdate, fmUpdateEv,
          fmUpdateStageStatus, hl, lookupRec_fmSave_self, getStage_convert]
        exact isSome_fmSave _ _ _ _ (isSome_fmSave _ _ _ _ h)
      | ok core =>
        simp only [convertExcelToMarkdown, convertFailUpdate, fmUpdateEv,
          fmUpdateStageStatus, hl, lookupRec_fmSave_self, getStage_convert]
        exact isSome_fmSave _ _ _ _ (isSome_fmSave _ _ _ _ h)

theorem convert_result_char_none (store : FmStore) (tr : Trace)
    (path odir : String) (outcome : Except String ConvCore) (now : String) :
    (convertExcelToMarkdown store tr path odir none outcome now).2.2 =
      match outcome with
      | .ok core => .ok
          { status := "success", input_file := path, output_file := core.output_file
            output_dir := odir, file_size := core.file_size
            message := "Excel文件成功转换为Markdown", file_id := none }
      | .error e => .error ("转换失败: " ++ e) := by
  cases outcome <;> simp [convertExcelToMarkdown]

theorem convert_result_char_some (store : FmStore) (tr : Trace)
    (path odir fid : String) (outcome : Except String ConvCore) (now : String)
    (m : FmRecord) (h : lookupRec store fid = some m) :
    (convertExcelToMarkdown store tr path odir (some fid) outcome now).2.2 =
      match outcome with
      | .ok core => .ok
          { status := "success", input_file := path, output_file := core.output_file
            output_dir := odir, file_size := core.file_size
            message := "Excel文件成功转换为Markdown", file_id := some fid }
      | .error e => .error ("转换失败: " ++ e) := by
  cases outcome <;>
    simp [convertExcelToMarkdown, convertFailUpdate, fmUpdateEv, fmUpdateStageStatus,
      h, lookupRec_fmSave_self, Stages.getStage]

theorem exceptFailed_ok {ε α : Type} (a : α) :
    exceptFailed (Except.ok a : Except ε α) = false := rfl

theorem exceptFailed_error {ε α : Type} (e : ε) :
    exceptFailed (Except.error e : Except ε α) = true := rfl

theorem statusOf_success (r : ConvResultInfo) :
    (BatchEntry.success r).statusOf = r.status := rfl

theorem statusOf_failure (p e : String) (f : Option String) :
    (BatchEntry.failure p e f).statusOf = "error" := rfl

theorem batchGo_spec (odir now : String) :
    ∀ (items : List BatchItem) (store : FmStore) (tr : Trace),
      (∀ it ∈ items, ∀ f, it.fid = some f → (lookupRec store f).isSome = true) →
      (batchConvertGo store tr odir now items).2.2.1.length = items.length ∧
      (batchConvertGo store tr odir now items).2.2.2.1 =
        items.countP (fun it => ! exceptFailed it.outcome) ∧
      (batchConvertGo store tr odir now items).2.2.2.2 =
        items.countP (fun it => exceptFailed it.outcome) ∧
      (batchConvertGo store tr odir now items).2.2.1.countP
        (fun en => en.statusOf = "error") =
        items.countP (fun it => exceptFailed it.outcome) := by
  intro items
  induction items with
  | nil => intro store tr _; simp [batchConvertGo]
  | cons it rest ih =>
    intro store tr hpres
    have hhead : ∀ f, it.fid = some f → (lookupRec store f).isSome = true :=
      hpres it (List.mem_cons_self it rest)
    have hres :
        (convertExcelToMarkdown store tr it.file_path odir it.fid it.outcome now).2.2 =
          match it.outcome with
          | .ok core => .ok
              { status := "success", input_file := it.file_path
                output_file := core.output_file
                output_dir := odir, file_size := core.file_size
                message := "Excel文件成功转换为Markdown", file_id := it.fid }
          | .error e => .error ("转换失败: " ++ e) := by
      cases hf : it.fid with
      | none => rw [← hf]; rw [hf]; exact convert_result_char_none store tr it.file_path odir it.outcome now
      | some f =>
        obtain ⟨m, hm⟩ := Option.isSome_iff_exists.mp (hhead f hf)
        rw [← hf]; rw [hf]
        exact convert_result_char_some store tr it.file_path odir f it.outcome now m hm
    have hpres1 : ∀ q ∈ rest, ∀ f, q.fid = some f →
        (lookupRec (convertExcelToMarkdown store tr it.file_path odir it.fid it.outcome
          now).1 f).isSome = true := by
      intro q hq f hf
      exact convert_preserves store tr it.file_path odir it.fid it.outcome now f
        (hpres q (List.mem_cons_of_mem _ hq) f hf)
    rcases hc : convertExcelToMarkdown store tr it.file_path odir it.fid it.outcome now
      with ⟨st1, tr1, res⟩
    rw [hc] at hres hpres1
    simp only at hres hpres1
    obtain ⟨ih1, ih2, ih3, ih4⟩ := ih st1 tr1 hpres1
    simp only [batchConvertGo, hc]
    cases res with
    | ok info =>
      cases hout : it.outcome with
      | error e => rw [hout] at hres; simp at hres
      | ok core =>
        rw [hout] at hres
        injection hres with hinfo
        subst hinfo
        refine ⟨?_, ?_, ?_, ?_⟩ <;>
          simp [ih1, ih2, ih3, ih4, List.countP_cons, hout, exceptFailed_ok,
            exceptFailed_error, statusOf_success, statusOf_failure]
    | error msg =>
      cases hout : it.outcome with
      | ok core => rw [hout] at hres; simp at hres
      | error e =>
        rw [hout] at hres
        injection hres with hmsg
        subst hmsg
        refine ⟨?_, ?_, ?_, ?_⟩ <;>
          simp [ih1, ih2, ih3, ih4, List.countP_cons, hout, exceptFailed_ok,
            exceptFailed_error, statusOf_success, statusOf_failure]

theorem countP_add_not {α : Type} (p : α → Bool) (l : List α) :
    l.countP (fun a => ! p a) + l.countP p = l.length := by
  induction l with
  | nil => simp
  | cons a l ih =>
    by_cases hp : p a = true <;> simp [List.countP_cons, hp, ← ih] <;> omega

/-- C6: a batch in which exactly one item's conversion fails is not
aborted: the result has one entry per item, exactly one entry marked
`error`, and `success_count + error_count` equals the item count. -/
theorem c6_batch_isolates_single_failure
    (store : FmStore) (items : List BatchItem) (odir now : String)
    (hpres : ∀ it ∈ items, ∀ f, it.fid = some f → (lookupRec store f).isSome = true)
    (hone : items.countP (fun it => exceptFailed it.outcome) = 1) :
    (batchConvertExcelToMarkdown store items odir now).2.2.results.length = items.length ∧
    (batchConvertExcelToMarkdown store items odir now).2.2.results.countP
      (fun en => en.statusOf = "error") = 1 ∧
    (batchConvertExcelToMarkdown store items odir now).2.2.success_count +
      (batchConvertExcelToMarkdown store items odir now).2.2.error_count = items.length ∧
    (batchConvertExcelToMarkdown store items odir now).2.2.total_files = items.length ∧
    (batchConvertExcelToMarkdown store items odir now).2.2.status = "completed" := by
  obtain ⟨h1, h2, h3, h4⟩ := batchGo_spec odir now items store [] hpres
  refine ⟨?_, ?_, ?_, rfl, rfl⟩
  · simpa [batchConvertExcelToMarkdown] using h1
  · simp only [batchConvertExcelToMarkdown]
    rw [h4, hone]
  · simp only [batchConvertExcelToMarkdown]
    rw [h2, h3]
    exact countP_add_not _ items

/-- Witness for C6 at a two-item batch whose second item fails. -/
theorem c6_batch_isolates_single_failure_witness :
    [BatchItem.mk "up/a.xlsx" (some "a") (.ok ⟨"out/a.md", 3⟩),
     BatchItem.mk "up/b.xlsx" none (.error "bad")].countP
      (fun it => exceptFailed it.outcome) = 1 ∧
    (batchConvertExcelToMarkdown (fmCreateFileRecord [] "a" "a.xlsx" 5 ".xlsx" "t0").1
      [BatchItem.mk "up/a.xlsx" (some "a") (.ok ⟨"out/a.md", 3⟩),
       BatchItem.mk "up/b.xlsx" none (.error "bad")] "out" "t1").2.2.results.countP
      (fun en => en.statusOf = "error") = 1 :=
  ⟨rfl,
    (c6_batch_isolates_single_failure (fmCreateFileRecord [] "a" "a.xlsx" 5 ".xlsx" "t0").1
      [BatchItem.mk "up/a.xlsx" (some "a") (.ok ⟨"out/a.md", 3⟩),
       BatchItem.mk "up/b.xlsx" none (.error "bad")] "out" "t1"
      (by
        intro it hit f hf
        fin_cases hit
        · simp only at hf
          injection hf with hff
          subst hff
          rfl
        · simp only at hf
          exact absurd hf (by simp))
      rfl).2.1⟩

/-! ## Record Store claims over the durable-table store -/

/-- `Except` → `Option`, dropping the error. -/
def exceptToOption {ε α : Type} : Except ε α → Option α
  | .ok a => some a
  | .error _ => none

/-- The overall-status function exactly as the claim words it: a pure
function of the THREE stage statuses upload, convert and vectorize (this
follows the spec text, for comparison with the code's
`dbOverallStatus`, which reads only convert and vectorize). -/
def claimOverallStatus (u c v : String) : String :=
  if u = "completed" ∧ c = "completed" ∧ v = "completed" then "completed"
  else if u = "error" ∨ c = "error" ∨ v = "error" then "error"
  else if (u = "processing" ∨ u = "completed") ∨ (c = "processing" ∨ c = "completed") ∨
      (v = "processing" ∨ v = "completed") then "processing"
  else "uploaded"

/-- A store holding exactly one freshly created record. -/
def dbDemo : DbStore :=
  dbCreateFileRecord dbEmpty "f1" "report.xlsx" "f1.xlsx" 1024 (some "uploads/f1.xlsx") "t0"

/-- Counterexample for C1: immediately after `CreateRecord` the stage
statuses are (upload completed, convert pending, vectorize pending); the
claimed three-stage pure function maps them to `processing` (upload is in
{processing, completed}), but the stored overall status is `uploaded` —
the code derives the status from convert and vectorize only. -/
theorem c1_overall_status_counterexample :
    ((lookupRec dbDemo.records "f1").map (·.status)) = some "uploaded" ∧
    (dbDemo.stages.map fun r => (r.stage_name, r.status)) =
      [("upload", "completed"), ("convert", "pending"), ("vectorize", "pending")] ∧
    claimOverallStatus "completed" "pending" "pending" = "processing" ∧
    ("uploaded" : String) ≠ "processing" :=
  ⟨rfl, rfl, rfl, by decide⟩

/-- Counterexample for C2: `UpdateStage` on an id absent from the (empty)
durable store does not fail with `NotFound` — it returns successfully
with no record, the store unchanged. -/
theorem c2_update_unknown_id_counterexample :
    dbUpdateStageStatus dbEmpty "missing" "convert" "completed" none none "t1" =
      .ok (dbEmpty, none) := rfl

/-- C3 (code bug): deleting the one record of `dbDemo` reports `cleaned`
and a subsequent `GetRecord` is `NotFound`, but all three of its stage
rows survive, because no connection ever runs `PRAGMA foreign_keys=ON`
and SQLite therefore never enforces the schema's `ON DELETE CASCADE`;
deleting an absent id reports the not-found dict and changes nothing. -/
theorem c3_delete_leaves_stage_rows :
    (dbCleanupFile dbDemo "f1").2 = .cleaned "f1" ∧
    dbGetFileRecord (dbCleanupFile dbDemo "f1").1 "f1" = none ∧
    ((dbCleanupFile dbDemo "f1").1.stages.filter fun r => r.file_id = "f1").length = 3 ∧
    (dbCleanupFile dbEmpty "missing").2 = .notFoundDict ∧
    (dbCleanupFile dbEmpty "missing").1 = dbEmpty :=
  ⟨rfl, rfl, rfl, rfl, rfl⟩

/-- Counterexample for C8: on a store holding record `f1`, `UpdateStage`
with the stage name `badstage` (outside the fixed set) does not fail with
`InvalidStage` — it succeeds — and it does change the record: its
`updated_at` moves from `t0` to `t1`. -/
theorem c8_invalid_stage_counterexample :
    exceptFailed (dbUpdateStageStatus dbDemo "f1" "badstage" "completed" none none "t1")
      = false ∧
    ((exceptToOption (dbUpdateStageStatus dbDemo "f1" "badstage" "completed" none none "t1")).map
      fun r => (lookupRec r.1.records "f1").map (·.updated_at)) = some (some "t1") ∧
    ((lookupRec dbDemo.records "f1").map (·.updated_at)) = some "t0" :=
  ⟨rfl, rfl, rfl⟩

theorem recMap_comp (fid : String) (f g : DbRecord → DbRecord)
    (recs : List (String × DbRecord)) :
    recMap fid g (recMap fid f recs) = recMap fid (fun r => g (f r)) recs := by
  induction recs with
  | nil => rfl
  | cons p rest ih =>
    by_cases hk : p.1 = fid
    · simp only [recMap, List.map_cons, if_pos hk] at ih ⊢
      exact congrArg _ ih
    · simp only [recMap, List.map_cons, if_neg hk] at ih ⊢
      exact congrArg _ ih

theorem mem_recMap {fid : String} {f : DbRecord → DbRecord}
    {recs : List (String × DbRecord)} {p : String × DbRecord}
    (h : p ∈ recMap fid f recs) :
    (p.1 ≠ fid ∧ p ∈ recs) ∨ (p.1 = fid ∧ ∃ r, (fid, r) ∈ recs ∧ p.2 = f r) := by
  rw [recMap, List.mem_map] at h
  obtain ⟨q, hq, hpq⟩ := h
  by_cases hk : q.1 = fid
  · right
    rw [← hpq, if_pos hk]
    refine ⟨hk, q.2, ?_, rfl⟩
    rw [← hk]
    exact hq
  · left
    rw [← hpq, if_neg hk]
    exact ⟨hk, hq⟩

theorem dbStageStatusesFor_stgMap_ne {fid q : String} (hne : q ≠ fid) (stage : String)
    (f : DbStageRow → DbStageRow) (hf : ∀ r, (f r).file_id = r.file_id)
    (rows : List DbStageRow) :
    dbStageStatusesFor (stgMap fid stage f rows) q = dbStageStatusesFor rows q := by
  induction rows with
  | nil => rfl
  | cons r rest ih =>
    by_cases hcond : r.file_id = fid ∧ r.stage_name = stage
    · have hrq : ¬ r.file_id = q := by
        rw [hcond.1]; exact fun hh => hne hh.symm
      have hfq : ¬ (f r).file_id = q := by
        rw [hf r, hcond.1]; exact fun hh => hne hh.symm
      have hstg : stgMap fid stage f (r :: rest) = f r :: stgMap fid stage f rest := by
        simp [stgMap, hcond]
      rw [hstg]
      simp only [dbStageStatusesFor, List.filter_cons]
      rw [if_neg (by simp [hfq]), if_neg (by simp [hrq])]
      simpa only [dbStageStatusesFor] using ih
    · have hstg : stgMap fid stage f (r :: rest) = r :: stgMap fid stage f rest := by
        simp [stgMap, hcond]
      rw [hstg]
      simp only [dbStageStatusesFor, List.filter_cons]
      by_cases hr : r.file_id = q ∧ (r.stage_name = "convert" ∨ r.stage_name = "vectorize")
      · rw [if_pos (by simp [hr]), if_pos (by simp [hr])]
        simp only [List.map_cons]
        exact congrArg _ (by simpa only [dbStageStatusesFor] using ih)
      · rw [if_neg (by simp [hr]), if_neg (by simp [hr])]
        simpa only [dbStageStatusesFor] using ih

/-- The C1 invariant on the durable store: every record's overall status
is the code's pure function of its convert and vectorize stage rows. -/
def DbInv (st : DbStore) : Prop :=
  ∀ p ∈ st.records, p.2.status = dbOverallStatus (dbStageStatusesFor st.stages p.1)

theorem dbInv_core (recs : List (String × DbRecord)) (rows1 : List DbStageRow)
    (fid : String) (F : DbRecord → DbRecord)
    (hF : ∀ r, (F r).status = dbOverallStatus (dbStageStatusesFor rows1 fid))
    (hold : ∀ p ∈ recs, p.1 ≠ fid →
      p.2.status = dbOverallStatus (dbStageStatusesFor rows1 p.1)) :
    DbInv { records := recMap fid F recs, stages := rows1 } := by
  intro p hp
  rcases mem_recMap hp with ⟨hne, hmem⟩ | ⟨heq, r, _, hpr⟩
  · exact hold p hmem hne
  · rw [hpr, hF r, heq]

theorem dbStageStatusesFor_append (l1 l2 : List DbStageRow) (q : String) :
    dbStageStatusesFor (l1 ++ l2) q = dbStageStatusesFor l1 q ++ dbStageStatusesFor l2 q := by
  simp [dbStageStatusesFor, List.filter_append]

/-- C1 (amended): the durable store's overall status is the pure function
of the convert and vectorize stage statuses ONLY (the upload stage is not
consulted): both completed ⇒ completed; any error ⇒ error; any in
{processing, completed} ⇒ processing; otherwise uploaded — no other
derived state exists, and the invariant is preserved by `CreateRecord`
(fresh id) and by every successful `UpdateStage`. -/
theorem c1_overall_status_invariant (st : DbStore) (hinv : DbInv st) :
    (∀ sts : List String, dbOverallStatus sts = "completed" ∨ dbOverallStatus sts = "error" ∨
      dbOverallStatus sts = "processing" ∨ dbOverallStatus sts = "uploaded") ∧
    (∀ fid orig temp size upath now, (∀ p ∈ st.records, p.1 ≠ fid) →
      (∀ r ∈ st.stages, r.file_id ≠ fid) →
      DbInv (dbCreateFileRecord st fid orig temp size upath now)) ∧
    (∀ fid stage status result error now st' view,
      dbUpdateStageStatus st fid stage status result error now = .ok (st', view) →
      DbInv st') := by
  refine ⟨?_, ?_, ?_⟩
  · intro sts
    unfold dbOverallStatus
    split_ifs <;> simp
  · intro fid orig temp size upath now hfr hfs p hp
    simp only [dbCreateFileRecord] at hp ⊢
    rcases List.mem_append.mp hp with hpold | hpnew
    · have hne : p.1 ≠ fid := hfr p hpold
      have hnf : ¬ fid = p.1 := fun hh => hne hh.symm
      rw [dbStageStatusesFor_append]
      have hz : dbStageStatusesFor
          [ { file_id := fid, stage_name := "upload", status := "completed"
              timestamp := some now, result := none, error := none }
          , { file_id := fid, stage_name := "convert", status := "pending"
              timestamp := none, result := none, error := none }
          , { file_id := fid, stage_name := "vectorize", status := "pending"
              timestamp := none, result := none, error := none } ] p.1 = [] := by
        simp [dbStageStatusesFor, hnf]
      rw [hz, List.append_nil]
      exact hinv p hpold
    · have hp1 : p = (fid,
        { original_filename := orig, temp_filename := temp
          file_size := size, status := "uploaded"
          created_at := now, updated_at := now
          upload_path := upath, output_path := none, markdown_path := none
          document_count := 0, vector_type := none, processing_errors := [] }) := by
        simpa using hpnew
      subst hp1
      rw [dbStageStatusesFor_append]
      have hz : dbStageStatusesFor st.stages fid = [] := by
        unfold dbStageStatusesFor
        rw [List.filter_eq_nil_iff.mpr ?_, List.map_nil]
        intro r hr
        simp [hfs r hr]
      rw [hz, List.nil_append]
      simp [dbStageStatusesFor, dbOverallStatus]
  · intro fid stage status result error now st' view hok
    cases error with
    | none =>
      simp only [dbUpdateStageStatus] at hok
      injection hok with hpair
      injection hpair with hst hview
      subst hst
      rw [recMap_comp, recMap_comp]
      apply dbInv_core
      · intro r
        rfl
      · intro p hp hne
        rw [dbStageStatusesFor_stgMap_ne hne stage
          (dbStageUpd status result none now) (fun r => rfl)]
        exact hinv p hp
    | some e =>
      simp only [dbUpdateStageStatus] at hok
      split at hok
      · exact absurd hok (by simp)
      · injection hok with hpair
        injection hpair with hst hview
        subst hst
        rw [recMap_comp, recMap_comp, recMap_comp]
        apply dbInv_core
        · intro r
          rfl
        · intro p hp hne
          rw [dbStageStatusesFor_stgMap_ne hne stage
            (dbStageUpd status result (some e) now) (fun r => rfl)]
          exact hinv p hp

/-- Witness for C1: the invariant holds on the empty store and is carried
to a concrete freshly created record. -/
theorem c1_overall_status_invariant_witness :
    DbInv dbEmpty ∧ DbInv (dbCreateFileRecord dbEmpty "f1" "a.xlsx" "f1.xlsx" 7 none "t0") := by
  have hinv : DbInv dbEmpty := by
    intro p hp
    exact absurd hp (List.not_mem_nil p)
  exact ⟨hinv,
    (c1_overall_status_invariant dbEmpty hinv).2.1 "f1" "a.xlsx" "f1.xlsx" 7 none "t0"
      (by intro p hp; exact absurd hp (List.not_mem_nil p))
      (by intro r hr; exact absurd hr (List.not_mem_nil r))⟩

theorem recMap_id_of_no_key (fid : String) (f : DbRecord → DbRecord) :
    ∀ recs : List (String × DbRecord), (∀ p ∈ recs, p.1 ≠ fid) →
      recMap fid f recs = recs := by
  intro recs
  induction recs with
  | nil => intro _; rfl
  | cons p rest ih =>
    intro h
    have hp := h p (List.mem_cons_self p rest)
    have htail := ih fun q hq => h q (List.mem_cons_of_mem _ hq)
    simp only [recMap, List.map_cons, if_neg hp]
    simp only [recMap] at htail
    rw [htail]

theorem stgMap_id_of_no_match (fid stage : String) (f : DbStageRow → DbStageRow) :
    ∀ rows : List DbStageRow, (∀ r ∈ rows, ¬ (r.file_id = fid ∧ r.stage_name = stage)) →
      stgMap fid stage f rows = rows := by
  intro rows
  induction rows with
  | nil => intro _; rfl
  | cons r rest ih =>
    intro h
    have hr := h r (List.mem_cons_self r rest)
    have htail := ih fun q hq => h q (List.mem_cons_of_mem _ hq)
    simp only [stgMap, List.map_cons, if_neg hr]
    simp only [stgMap] at htail
    rw [htail]

theorem lookupRec_recMap (fid : String) (f : DbRecord → DbRecord)
    (recs : List (String × DbRecord)) :
    lookupRec (recMap fid f recs) fid = (lookupRec recs fid).map f := by
  induction recs with
  | nil => rfl
  | cons p rest ih =>
    by_cases hk : p.1 = fid
    · simp [recMap, lookupRec, hk]
    · simp only [recMap, List.map_cons, if_neg hk, lookupRec, if_neg hk]
      simpa [recMap] using ih

/-- C2 (amended): `UpdateStage` on an id with no record row does not fail
with NotFound on the durable store.  With no error argument it succeeds,
returning no record: the record table is unchanged, and the stage table
changes only in the orphaned stage rows of that id — rows the cascade-less
delete can leave behind — which are updated and committed; in particular,
when the id has no stage rows either, the store comes back identical.
With an error argument it raises `TypeError` (from reading
`processing_errors` of the missing row) and the transaction rolls back, so
the store is untouched.  The JSON-blob `FileManager` fails with the
NotFound `ValueError` and saves nothing. -/
theorem c2_update_unknown_id (st : DbStore) (fid : String)
    (hr : ∀ p ∈ st.records, p.1 ≠ fid) :
    (∀ stage status result now,
      dbUpdateStageStatus st fid stage status result none now =
        .ok ({ records := st.records
               stages := stgMap fid stage (dbStageUpd status result none now) st.stages },
          none)) ∧
    (∀ stage status result now, (∀ r ∈ st.stages, r.file_id ≠ fid) →
      dbUpdateStageStatus st fid stage status result none now = .ok (st, none)) ∧
    (∀ stage status result e now,
      dbUpdateStageStatus st fid stage status result (some e) now = .error .typeError) ∧
    (∀ (fmStore : FmStore), lookupRec fmStore fid = none →
      ∀ stage status result error now,
        fmUpdateStageStatus fmStore fid stage status result error now =
          .error (.valueError ("文件记录不存在: " ++ fid))) := by
  have hlook : lookupRec st.records fid = none :=
    lookupRec_eq_none_of_no_key hr
  refine ⟨?_, ?_, ?_, ?_⟩
  · intro stage status result now
    simp only [dbUpdateStageStatus]
    rw [recMap_id_of_no_key fid _ st.records hr,
      recMap_id_of_no_key fid _ st.records hr,
      recMap_id_of_no_key fid _ st.records hr]
    simp [dbGetFileRecord, hlook]
  · intro stage status result now hs
    simp only [dbUpdateStageStatus]
    rw [stgMap_id_of_no_match fid stage _ st.stages
        (fun q hq hc => hs q hq hc.1),
      recMap_id_of_no_key fid _ st.records hr,
      recMap_id_of_no_key fid _ st.records hr,
      recMap_id_of_no_key fid _ st.records hr]
    simp [dbGetFileRecord, hlook]
  · intro stage status result e now
    simp only [dbUpdateStageStatus]
    rw [recMap_id_of_no_key fid _ st.records hr,
      recMap_id_of_no_key fid _ st.records hr,
      recMap_id_of_no_key fid _ st.records hr,
      hlook]
  · intro fmStore hnone stage status result error now
    simp [fmUpdateStageStatus, hnone]

/-- Witness for C2: on the orphan-row store the cascade-less delete leaves
behind, the call succeeds, returns no record, and commits an update of the
orphaned convert row (pending → completed); on the empty store the result
is the identical store; the error-argument call raises `TypeError`; the
`FileManager` raises the NotFound `ValueError`. -/
theorem c2_update_unknown_id_witness :
    ((dbCleanupFile dbDemo "f1").1.stages.map fun row => (row.stage_name, row.status)) =
      [("upload", "completed"), ("convert", "pending"), ("vectorize", "pending")] ∧
    ((exceptToOption (dbUpdateStageStatus (dbCleanupFile dbDemo "f1").1 "f1" "convert"
        "completed" none none "t2")).map
      fun r => (r.1.stages.map fun row => (row.stage_name, row.status), r.2)) =
      some ([("upload", "completed"), ("convert", "completed"), ("vectorize", "pending")],
        none) ∧
    dbUpdateStageStatus dbEmpty "nope" "convert" "completed" none none "t1" =
      .ok (dbEmpty, none) ∧
    dbUpdateStageStatus dbEmpty "nope" "convert" "error" none (some "boom") "t1" =
      .error .typeError ∧
    fmUpdateStageStatus [] "nope" "convert" "completed" none none "t1" =
      .error (.valueError ("文件记录不存在: " ++ "nope")) := by
  obtain ⟨g1, _, _, _⟩ := c2_update_unknown_id (dbCleanupFile dbDemo "f1").1 "f1"
    (by decide)
  obtain ⟨_, h1, h2, h3⟩ := c2_update_unknown_id dbEmpty "nope"
    (fun p hp => absurd hp (List.not_mem_nil p))
  refine ⟨rfl, ?_, h1 "convert" "completed" none "t1"
      (fun r hr => absurd hr (List.not_mem_nil r)),
    h2 "convert" "error" none "boom" "t1",
    h3 [] rfl "convert" "completed" none none "t1"⟩
  rw [g1 "convert" "completed" none "t2"]
  rfl

theorem dbRecPaths_updated_at (stage status : String) (result : Option StagePayload)
    (r : DbRecord) : (dbRecPaths stage status result r).updated_at = r.updated_at := by
  unfold dbRecPaths
  split_ifs <;> try rfl
  split <;> rfl

/-- C8 (amended): with the record present and a stage name outside the
fixed set {upload, convert, vectorize}, the durable store's `UpdateStage`
does NOT fail with `InvalidStage`: it succeeds, leaves every stage row
unchanged, but does change the record — its `updated_at` becomes the call
time (and, when an error argument is given, an entry naming the invalid
stage is appended to the error log); the JSON-blob `FileManager` instead
raises a `KeyError` for the unknown stage and saves nothing. -/
theorem c8_invalid_stage_behavior (st : DbStore) (fid stage : String) (rec : DbRecord)
    (hrec : lookupRec st.records fid = some rec)
    (hwf : ∀ r ∈ st.stages, r.stage_name = "upload" ∨ r.stage_name = "convert" ∨
      r.stage_name = "vectorize")
    (hstage : ¬ (stage = "upload" ∨ stage = "convert" ∨ stage = "vectorize")) :
    (∀ status result error now,
      exceptFailed (dbUpdateStageStatus st fid stage status result error now) = false ∧
      (exceptToOption (dbUpdateStageStatus st fid stage status result error now)).map
        (fun r => r.1.stages) = some st.stages ∧
      (exceptToOption (dbUpdateStageStatus st fid stage status result error now)).map
        (fun r => (lookupRec r.1.records fid).map (·.updated_at)) = some (some now)) ∧
    (∀ (fmStore : FmStore) (fid' : String) (rec' : FmRecord),
      lookupRec fmStore fid' = some rec' →
      ∀ status result error now,
        fmUpdateStageStatus fmStore fid' stage status result error now =
          .error (.keyError stage)) := by
  have hnomatch : ∀ r ∈ st.stages, ¬ (r.file_id = fid ∧ r.stage_name = stage) := by
    intro r hrw hc
    rcases hwf r hrw with h | h | h <;> exact hstage (by rw [← hc.2, h]; simp)
  constructor
  · intro status result error now
    cases error with
    | none =>
      simp only [dbUpdateStageStatus]
      rw [stgMap_id_of_no_match fid stage _ st.stages hnomatch]
      refine ⟨rfl, rfl, ?_⟩
      simp [exceptToOption, lookupRec_recMap, hrec, dbRecAddError, dbRecSetStatus,
        dbRecPaths_updated_at, dbRecTouch]
    | some e =>
      simp only [dbUpdateStageStatus]
      rw [stgMap_id_of_no_match fid stage _ st.stages hnomatch]
      refine ⟨?_, ?_, ?_⟩ <;>
        simp [exceptFailed, exceptToOption, lookupRec_recMap, hrec, dbRecAddError,
          dbRecSetStatus, dbRecPaths_updated_at, dbRecTouch]
  · intro fmStore fid' rec' hr' status result error now
    have h1 : ¬ stage = "upload" := fun hh => hstage (Or.inl hh)
    have h2 : ¬ stage = "convert" := fun hh => hstage (Or.inr (Or.inl hh))
    have h3 : ¬ stage = "vectorize" := fun hh => hstage (Or.inr (Or.inr hh))
    simp [fmUpdateStageStatus, hr', Stages.getStage, h1, h2, h3]

/-- Witness for C8 on a concrete one-record store and metadata directory. -/
theorem c8_invalid_stage_behavior_witness :
    exceptFailed (dbUpdateStageStatus dbDemo "f1" "badstage" "completed" none none "t1")
      = false ∧
    fmUpdateStageStatus (fmCreateFileRecord [] "f1" "r.xlsx" 10 ".xlsx" "t0").1 "f1"
        "badstage" "completed" none none "t1" = .error (.keyError "badstage") := by
  obtain ⟨hdb, hfm⟩ := c8_invalid_stage_behavior dbDemo "f1" "badstage"
    { original_filename := "report.xlsx", temp_filename := "f1.xlsx", file_size := 1024
      status := "uploaded", created_at := "t0", updated_at := "t0"
      upload_path := some "uploads/f1.xlsx", output_path := none, markdown_path := none
      document_count := 0, vector_type := none, processing_errors := [] }
    rfl
    (by decide)
    (by decide)
  exact ⟨(hdb "completed" none none "t1").1,
    hfm (fmCreateFileRecord [] "f1" "r.xlsx" 10 ".xlsx" "t0").1 "f1"
      (fmCreateFileRecord [] "f1" "r.xlsx" 10 ".xlsx" "t0").2 rfl
      "completed" none none "t1"⟩
